import Mathlib

/-!
Verification of the secflow-collector validator pipeline.

Go strings are modelled as lists of characters (`GoStr`); Go byte slices
carrying message payloads are modelled the same way, since the code never
inspects individual bytes of a payload.  Functions returning `(T, error)`
in Go are modelled as returning `T × Option GoStr` (the error message, or
`none` for a nil error), and functions returning `(T, error)` where only
one of the two is meaningful become `Except GoStr T`.
-/

namespace SecFlow

/-- Go strings, modelled as lists of characters. -/
abbrev GoStr := List Char

/-- Shorthand turning a Lean string literal into the `GoStr` model. -/
def gs (s : String) : GoStr := s.toList

/-- Model of Go `strings.HasPrefix`. -/
def goHasPre (s pre : GoStr) : Bool := pre.isPrefixOf s

/-- Model of Go `strings.TrimPrefix`: drops `pre` when it is a prefix of `s`,
otherwise returns `s` unchanged. -/
def goTrimPre (s pre : GoStr) : GoStr :=
  if pre.isPrefixOf s then s.drop pre.length else s

/-- Model of Go `strings.TrimSuffix`: drops `suf` when it is a suffix of `s`,
otherwise returns `s` unchanged. -/
def goTrimSuf (s suf : GoStr) : GoStr :=
  if suf.isSuffixOf s then s.take (s.length - suf.length) else s

/-- Model of Go `strings.Split` with a one-character separator: splits `s`
on every occurrence of `sep`; the result is never empty, and splitting the
empty string yields one empty field, exactly as in Go. -/
def goSplit (sep : Char) : GoStr → List GoStr
  | [] => [[]]
  | c :: cs =>
    if c = sep then [] :: goSplit sep cs
    else
      match goSplit sep cs with
      | [] => [[c]]
      | p :: ps => (c :: p) :: ps

/-- The literal `https://github.com/` clone-URL form checked first by
`extractOwnerFromURL`. -/
def httpsForm : GoStr := gs "https://github.com/"

/-- The literal `git@github.com:` clone-URL form checked second. -/
def sshForm : GoStr := gs "git@github.com:"

/-- The literal `.git` suffix trimmed from a clone URL. -/
def dotGit : GoStr := gs ".git"

/-- The error message built by `extractOwnerFromURL` when neither URL form
matches (Go: `fmt.Errorf("unable to parse owner from URL: %s", cloneURL)`). -/
def extractErr (cloneURL : GoStr) : GoStr :=
  gs "unable to parse owner from URL: " ++ cloneURL

/-- Embedding of `Processor.extractOwnerFromURL` (src/unnamed/part_007).
The receiver is unused by the Go method, so it is omitted.  Go guards the
`parts[0]` access with `len(parts) >= 1`; when that guard fails control
falls through to the final error return, which the `else` branches mirror. -/
def extractOwnerFromURL (cloneURL : GoStr) : Except GoStr GoStr :=
  if goHasPre cloneURL httpsForm then
    let path := goTrimPre cloneURL httpsForm
    let path := goTrimSuf path dotGit
    let parts := goSplit '/' path
    if parts.length ≥ 1 then .ok parts.headI
    else .error (extractErr cloneURL)
  else if goHasPre cloneURL sshForm then
    let path := goTrimPre cloneURL sshForm
    let path := goTrimSuf path dotGit
    let parts := goSplit '/' path
    if parts.length ≥ 1 then .ok parts.headI
    else .error (extractErr cloneURL)
  else
    .error (extractErr cloneURL)

/-! ### Checker (src/internal/validator/checker.go) -/

/-- Outcome of the go-github `Repositories.GetContents` call as observed by
`HasAppSecConfig`: the HTTP status code of the response when one was received
(`none` models a nil `*github.Response`, as on a transport failure), and the
error value (`none` models a nil error). -/
structure GetContentsOutcome where
  respStatus : Option Nat
  err : Option GoStr
deriving DecidableEq

/-- The error wrapper used by `HasAppSecConfig`
(Go: `fmt.Errorf` with the message `failed to check for appsec-config.yml`). -/
def checkWrapErr (e : GoStr) : GoStr :=
  gs "failed to check for appsec-config.yml: " ++ e

/-- Embedding of `Checker.HasAppSecConfig` (src/internal/validator/checker.go):
from the outcome of the remote call it computes the `(bool, error)` pair.  A
non-nil error whose response carries status 404 becomes `(false, nil)`; any
other non-nil error is wrapped and returned; a nil error yields `(true, nil)`. -/
def HasAppSecConfig (call : GetContentsOutcome) : Bool × Option GoStr :=
  match call.err with
  | some e =>
    match call.respStatus with
    | some code => if code = 404 then (false, none) else (false, some (checkWrapErr e))
    | none => (false, some (checkWrapErr e))
  | none => (true, none)

/-! ### Repository record and message processing (src/internal/collector/repository.go,
src/unnamed/part_007) -/

/-- Embedding of `collector.Repository`.  The `time.Time` fields are modelled
by the RFC3339 strings `encoding/json` serializes them to; a nil and an empty
`Topics` slice are both modelled as the empty list. -/
structure Repository where
  Name : GoStr
  CloneURL : GoStr
  SSHURL : GoStr
  HTTPSURL : GoStr
  CreatedAt : GoStr
  UpdatedAt : GoStr
  Language : GoStr
  Topics : List GoStr
deriving DecidableEq

/-- Embedding of `config.Config` (src/internal/config/config.go). -/
structure Config where
  GitHubOrg : GoStr
  GitHubToken : GoStr
  NATSUrl : GoStr
  NATSSubject : GoStr
  CronSchedule : GoStr
  RunOnStartup : Bool
  ValidReposSubject : GoStr
  InvalidReposSubject : GoStr
  SourceSubject : GoStr
  ProcessStartupMessages : Bool
deriving DecidableEq

/-- Error wrapper of `ProcessMessage` for a failed `json.Unmarshal`. -/
def unmarshalWrapErr (e : GoStr) : GoStr :=
  gs "failed to unmarshal repository message: " ++ e

/-- Error wrapper of `ProcessMessage` for a failed owner extraction. -/
def extractWrapErr (url e : GoStr) : GoStr :=
  gs "failed to extract owner from URL " ++ url ++ gs ": " ++ e

/-- Error wrapper of `ProcessMessage` for a failed publish. -/
def publishWrapErr (subject e : GoStr) : GoStr :=
  gs "failed to publish to " ++ subject ++ gs ": " ++ e

/-- Result of one `ProcessMessage` call: the publish attempts made, in order,
as subject/payload pairs, and the returned error (`none` for nil). -/
structure ProcOutcome where
  published : List (GoStr × GoStr)
  err : Option GoStr
deriving DecidableEq

/-- Embedding of `Processor.ProcessMessage` (src/unnamed/part_007).  The
collaborators are passed as functions: `unmarshal` models `json.Unmarshal`
of the payload into a `Repository`; `check` models the
`checker.HasAppSecConfig` call on an owner and repository name; `pub` models
`nats.Conn.Publish` and yields the publish error, if any.  A decode or
owner-extraction failure returns early with no publish; a checker error
forces `hasConfig` to false; exactly one publish of the original payload is
then attempted, on the subject selected by `hasConfig`, and a publish error
is wrapped into the returned error. -/
def ProcessMessage (cfg : Config)
    (unmarshal : GoStr → Except GoStr Repository)
    (check : GoStr → GoStr → Bool × Option GoStr)
    (pub : GoStr → GoStr → Option GoStr)
    (data : GoStr) : ProcOutcome :=
  match unmarshal data with
  | .error e => ⟨[], some (unmarshalWrapErr e)⟩
  | .ok repo =>
    match extractOwnerFromURL repo.CloneURL with
    | .error e => ⟨[], some (extractWrapErr repo.CloneURL e)⟩
    | .ok owner =>
      let res := check owner repo.Name
      let hasConfig := if res.2.isSome then false else res.1
      let targetSubject :=
        if hasConfig then cfg.ValidReposSubject else cfg.InvalidReposSubject
      ⟨[(targetSubject, data)], (pub targetSubject data).map (publishWrapErr targetSubject)⟩

/-! ### Startup drain and Start (src/unnamed/part_008) -/

/-- One observed result of `sub.NextMsg(timeout)` during the startup drain. -/
inductive RecvOutcome where
  | msg (data : GoStr)
  | timeout
  | recvErr (e : GoStr)
deriving DecidableEq

/-- Error wrapper of `ProcessExistingMessages` for a non-timeout receive
error. -/
def recvWrapErr (e : GoStr) : GoStr :=
  gs "error receiving message during startup processing: " ++ e

/-- Result of the startup drain: the payloads handed to the processor in
order, the count of successfully processed messages, and the returned
error. -/
structure DrainOutcome where
  processed : List GoStr
  count : Nat
  err : Option GoStr
deriving DecidableEq

/-- Embedding of the receive loop of `Validator.ProcessExistingMessages`
(src/unnamed/part_008).  `trace` lists the successive results of
`sub.NextMsg(timeout)`; `proc` gives the error result of
`processor.ProcessMessage` on each payload.  A timeout breaks the loop with
a nil error; any other receive error returns a wrapped error; a received
message is processed synchronously — a processing error merely skips the
count — and the loop continues.  An exhausted trace marks the end of the
observation and is treated like a break. -/
def drainLoop (proc : GoStr → Option GoStr) : List RecvOutcome → DrainOutcome
  | [] => ⟨[], 0, none⟩
  | .timeout :: _ => ⟨[], 0, none⟩
  | .recvErr e :: _ => ⟨[], 0, some (recvWrapErr e)⟩
  | .msg d :: rest =>
    let r := drainLoop proc rest
    match proc d with
    | some _ => ⟨d :: r.processed, r.count, r.err⟩
    | none => ⟨d :: r.processed, r.count + 1, r.err⟩

/-- Embedding of `Validator.ProcessExistingMessages`: the drain runs only
when the `ProcessStartupMessages` flag is set, otherwise it is a no-op with
a nil error. -/
def ProcessExistingMessages (flag : Bool) (proc : GoStr → Option GoStr)
    (trace : List RecvOutcome) : DrainOutcome :=
  if flag then drainLoop proc trace else ⟨[], 0, none⟩

/-- Error wrapper of `Validator.Start` for a failed startup drain. -/
def startWrapErr (e : GoStr) : GoStr :=
  gs "failed to process existing messages: " ++ e

/-- Error wrapper of `Validator.Start` for a failed live subscribe. -/
def subscribeWrapErr (subject e : GoStr) : GoStr :=
  gs "failed to subscribe to " ++ subject ++ gs ": " ++ e

/-- Embedding of the control flow of `Validator.Start` (src/unnamed/part_008):
returns whether the live subscription was established together with the error
result.  `subErr` models the error result of `nc.Subscribe`.  A drain error
aborts Start before any live subscription is made. -/
def Start (cfg : Config) (proc : GoStr → Option GoStr)
    (trace : List RecvOutcome) (subErr : Option GoStr) : Bool × Option GoStr :=
  match (ProcessExistingMessages cfg.ProcessStartupMessages proc trace).err with
  | some e => (false, some (startWrapErr e))
  | none =>
    match subErr with
    | some e => (false, some (subscribeWrapErr cfg.SourceSubject e))
    | none => (true, none)

/-! ### Shutdown discipline (src/unnamed/part_008, `Validator.Stop`) -/

/-- Phases of the validator around shutdown: `live` (subscription active,
Stop not yet called), then the four successive statements of `Stop` —
after `cancel()` (`cancelled`), after `sub.Unsubscribe()` (`unsubscribed`),
after `wg.Wait()` returned (`waited`), after `nc.Close()` (`closed`). -/
inductive VPhase where
  | live
  | cancelled
  | unsubscribed
  | waited
  | closed
deriving DecidableEq

/-- Forward order of the phases. -/
def phaseRank : VPhase → Nat
  | .live => 0
  | .cancelled => 1
  | .unsubscribed => 2
  | .waited => 3
  | .closed => 4

/-- State of the validator: its phase and the in-flight unit counter
(the value of the `sync.WaitGroup`). -/
structure VState where
  phase : VPhase
  inFlight : Nat
deriving DecidableEq

/-- Transition relation modelling the live phase and `Validator.Stop`
(src/unnamed/part_008).  `spawn` and `spawnCancelled` model the NATS handler
doing `wg.Add(1)` and spawning a goroutine — still possible after the shared
context is cancelled, since cancellation does not stop delivery, but not
once the subscription is removed.  `finish` models a goroutine completing
(`wg.Done`).  `cancel`, `unsub`, `waitDone` and `close` are the four
successive statements of `Stop`; `waitDone` models `wg.Wait` returning,
which requires the in-flight counter to be zero. -/
inductive VStep : VState → VState → Prop where
  | spawn (n : Nat) : VStep ⟨.live, n⟩ ⟨.live, n + 1⟩
  | spawnCancelled (n : Nat) : VStep ⟨.cancelled, n⟩ ⟨.cancelled, n + 1⟩
  | finish (ph : VPhase) (n : Nat) : VStep ⟨ph, n + 1⟩ ⟨ph, n⟩
  | cancel (n : Nat) : VStep ⟨.live, n⟩ ⟨.cancelled, n⟩
  | unsub (n : Nat) : VStep ⟨.cancelled, n⟩ ⟨.unsubscribed, n⟩
  | waitDone : VStep ⟨.unsubscribed, 0⟩ ⟨.waited, 0⟩
  | close : VStep ⟨.waited, 0⟩ ⟨.closed, 0⟩

/-! ### JSON encoding of the repository record -/

/-- JSON values appearing in a serialized `Repository`: strings and arrays
of strings. -/
inductive JValue where
  | str (s : GoStr)
  | arr (elems : List GoStr)
deriving DecidableEq

/-- A JSON object: ordered key/value pairs. -/
abbrev JObject := List (GoStr × JValue)

/-- Modelled from the spec: `encoding/json` marshaling of
`collector.Repository` per the struct tags in
src/internal/collector/repository.go (the encoder itself is Go standard
library, not repository code).  Fields appear in struct order under their
tag names; `language` and `topics` carry `omitempty` and are omitted
entirely when empty. -/
def marshalRepository (r : Repository) : JObject :=
  [(gs "name", .str r.Name), (gs "clone_url", .str r.CloneURL),
   (gs "ssh_url", .str r.SSHURL), (gs "https_url", .str r.HTTPSURL),
   (gs "created_at", .str r.CreatedAt), (gs "updated_at", .str r.UpdatedAt)]
  ++ (if r.Language = [] then [] else [(gs "language", .str r.Language)])
  ++ (if r.Topics = [] then [] else [(gs "topics", .arr r.Topics)])

/-- Last-wins key lookup in a JSON object, as `encoding/json` applies
duplicate keys. -/
def jLookup (obj : JObject) (k : GoStr) : Option JValue :=
  obj.foldl (fun acc kv => if kv.1 = k then some kv.2 else acc) none

/-- Reads a string field; a missing or non-string value leaves the zero
value, the empty string. -/
def jStrField (obj : JObject) (k : GoStr) : GoStr :=
  match jLookup obj k with
  | some (.str s) => s
  | _ => []

/-- Reads a string-array field; a missing or non-array value leaves the
zero value, the nil slice. -/
def jArrField (obj : JObject) (k : GoStr) : List GoStr :=
  match jLookup obj k with
  | some (.arr xs) => xs
  | _ => []

/-- Modelled from the spec: `encoding/json` unmarshaling of a JSON object
into `collector.Repository` — each field is read from its tag name, and a
missing key leaves the field at its zero value. -/
def unmarshalRepository (obj : JObject) : Repository :=
  ⟨jStrField obj (gs "name"), jStrField obj (gs "clone_url"),
   jStrField obj (gs "ssh_url"), jStrField obj (gs "https_url"),
   jStrField obj (gs "created_at"), jStrField obj (gs "updated_at"),
   jStrField obj (gs "language"), jArrField obj (gs "topics")⟩

/-! ### Configuration loading (src/internal/config/config.go) -/

/-- Embedding of `config.Load`.  `getenv` models `os.Getenv`, which returns
the empty string for an unset variable.  Defaults are applied to empty
values, the two required variables are validated in order, and the two
boolean flags compare against the exact literals `true` and `false`. -/
def Load (getenv : GoStr → GoStr) : Except GoStr Config :=
  let natsUrl0 := getenv (gs "NATS_URL")
  let natsSubject0 := getenv (gs "NATS_SUBJECT")
  let cronSchedule0 := getenv (gs "CRON_SCHEDULE")
  let validRepos0 := getenv (gs "VALID_REPOS_SUBJECT")
  let invalidRepos0 := getenv (gs "INVALID_REPOS_SUBJECT")
  let sourceSubject0 := getenv (gs "SOURCE_SUBJECT")
  if getenv (gs "GITHUB_ORG") = [] then
    .error (gs "GITHUB_ORG environment variable is required")
  else if getenv (gs "GITHUB_TOKEN") = [] then
    .error (gs "GITHUB_TOKEN environment variable is required")
  else
    .ok ⟨getenv (gs "GITHUB_ORG"), getenv (gs "GITHUB_TOKEN"),
      if natsUrl0 = [] then gs "nats://localhost:4222" else natsUrl0,
      if natsSubject0 = [] then gs "github.repositories" else natsSubject0,
      if cronSchedule0 = [] then gs "0 0 * * 0" else cronSchedule0,
      if getenv (gs "RUN_ON_STARTUP") = gs "true" then true else false,
      if validRepos0 = [] then gs "repos.valid" else validRepos0,
      if invalidRepos0 = [] then gs "repos.invalid" else invalidRepos0,
      if sourceSubject0 = [] then gs "github.repositories" else sourceSubject0,
      if getenv (gs "PROCESS_STARTUP_MESSAGES") = gs "false" then false else true⟩

/-! ### Concrete sample data for witnesses -/

/-- A sample environment for exercising `Load`: the two required variables
set, the startup flag set to the (non-disabling) literal `False`, all other
variables unset. -/
def sampleEnv : GoStr → GoStr := fun k =>
  if k = gs "GITHUB_ORG" then gs "acme"
  else if k = gs "GITHUB_TOKEN" then gs "token123"
  else if k = gs "PROCESS_STARTUP_MESSAGES" then gs "False"
  else []

/-- The configuration `Load` produces from `sampleEnv`. -/
def sampleConfig : Config :=
  ⟨gs "acme", gs "token123", gs "nats://localhost:4222",
   gs "github.repositories", gs "0 0 * * 0", false,
   gs "repos.valid", gs "repos.invalid", gs "github.repositories", true⟩

/-- The concrete record of the spec scenario: repository `demo` of owner
`acme`, with empty language and topics. -/
def demoRepo : Repository :=
  ⟨gs "demo", gs "https://github.com/acme/demo.git",
   gs "git@github.com:acme/demo.git", gs "https://github.com/acme/demo.git",
   gs "2024-01-01T00:00:00Z", gs "2024-01-02T00:00:00Z", gs "", []⟩

/-- An unmarshal collaborator that always decodes to a fixed record. -/
def constUnmarshal (r : Repository) : GoStr → Except GoStr Repository :=
  fun _ => .ok r

/-- An unmarshal collaborator that always fails. -/
def failUnmarshal : GoStr → Except GoStr Repository :=
  fun _ => .error (gs "invalid character")

/-- A checker collaborator with a fixed answer. -/
def constCheck (b : Bool) (e : Option GoStr) : GoStr → GoStr → Bool × Option GoStr :=
  fun _ _ => (b, e)

/-- A publish collaborator that never fails. -/
def noPubErr : GoStr → GoStr → Option GoStr :=
  fun _ _ => none

/-! ### Lemmas about the string helpers -/

lemma goSplit_ne_nil (sep : Char) (s : GoStr) : goSplit sep s ≠ [] := by
  cases s with
  | nil => simp [goSplit]
  | cons c cs =>
    simp only [goSplit]
    split
    · simp
    · split <;> simp

lemma goSplit_headI (sep : Char) (s : GoStr) :
    (goSplit sep s).headI = s.takeWhile (fun c => !(c == sep)) := by
  induction s with
  | nil => rfl
  | cons c cs ih =>
    by_cases h : c = sep
    · subst h
      simp [goSplit, List.takeWhile_cons]
    · rcases hsp : goSplit sep cs with _ | ⟨p, ps⟩
      · exact absurd hsp (goSplit_ne_nil sep cs)
      · rw [hsp] at ih
        simp only [goSplit, if_neg h, hsp, List.takeWhile_cons]
        simp only [List.headI] at ih ⊢
        simp [h, ih]

lemma takeWhile_notSlash_of_not_mem (s : GoStr) (h : '/' ∉ s) :
    s.takeWhile (fun c => !(c == '/')) = s := by
  induction s with
  | nil => rfl
  | cons c cs ih =>
    simp only [List.mem_cons, not_or] at h
    rw [List.takeWhile_cons]
    simp [Ne.symm h.1, ih h.2]

lemma takeWhile_notSlash_append (owner rest : GoStr) (h : '/' ∉ owner) :
    (owner ++ '/' :: rest).takeWhile (fun c => !(c == '/')) = owner := by
  induction owner with
  | nil => simp [List.takeWhile_cons]
  | cons c cs ih =>
    simp only [List.mem_cons, not_or] at h
    rw [List.cons_append, List.takeWhile_cons]
    simp [Ne.symm h.1, ih h.2]

/-- Reading the first `/`-separated field of `owner ++ "/" ++ rest` after
trimming a trailing `.git` always yields `owner`: the trimmed suffix can
never reach across the separator, because `.git` contains no slash. -/
lemma takeWhile_goTrimSuf (owner rest : GoStr) (h : '/' ∉ owner) :
    (goTrimSuf (owner ++ '/' :: rest) dotGit).takeWhile (fun c => !(c == '/')) = owner := by
  unfold goTrimSuf
  by_cases hs : dotGit.isSuffixOf (owner ++ '/' :: rest)
  · rw [if_pos hs]
    have hsuf : dotGit <:+ (owner ++ '/' :: rest) := List.isSuffixOf_iff_suffix.mp hs
    have hL : (owner ++ '/' :: rest).length = owner.length + 1 + rest.length := by
      simp [List.length_append]
      omega
    have hd4 : dotGit.length = 4 := rfl
    rcases Nat.lt_or_ge owner.length ((owner ++ '/' :: rest).length - dotGit.length)
      with hlt | hge
    · rw [List.take_append_eq_append_take, List.take_of_length_le (le_of_lt hlt)]
      obtain ⟨m, hm⟩ :
          ∃ m, (owner ++ '/' :: rest).length - dotGit.length - owner.length = m + 1 :=
        ⟨(owner ++ '/' :: rest).length - dotGit.length - owner.length - 1, by omega⟩
      rw [hm, List.take_succ_cons]
      exact takeWhile_notSlash_append owner (rest.take m) h
    · exfalso
      have hdrop :
          List.drop ((owner ++ '/' :: rest).length - dotGit.length) (owner ++ '/' :: rest)
            = dotGit :=
        (List.suffix_iff_eq_drop.mp hsuf).symm
      rw [List.drop_append_eq_append_drop, Nat.sub_eq_zero_of_le hge, List.drop_zero]
        at hdrop
      have hmem : ('/' : Char) ∈ dotGit := by
        rw [← hdrop]
        simp
      exact absurd hmem (by decide)
  · rw [if_neg hs]
    exact takeWhile_notSlash_append owner rest h

lemma isPrefixOf_append_self (pre s : GoStr) : pre.isPrefixOf (pre ++ s) = true := by
  induction pre with
  | nil => simp [List.isPrefixOf]
  | cons c cs ih => simp [List.isPrefixOf, ih]

lemma goTrimPre_append (pre s : GoStr) : goTrimPre (pre ++ s) pre = s := by
  unfold goTrimPre
  rw [if_pos (isPrefixOf_append_self pre s), List.drop_left]

lemma goHasPre_append (pre s : GoStr) : goHasPre (pre ++ s) pre = true :=
  isPrefixOf_append_self pre s

lemma not_httpsForm_of_sshForm (s : GoStr) : goHasPre (sshForm ++ s) httpsForm = false := rfl

/-- Both URL-form branches of `extractOwnerFromURL` reduce to reading the
first `/`-separated field of the `.git`-trimmed remainder. -/
lemma extractOwnerFromURL_https (rem : GoStr) :
    extractOwnerFromURL (httpsForm ++ rem) =
      .ok ((goTrimSuf rem dotGit).takeWhile (fun c => !(c == '/'))) := by
  unfold extractOwnerFromURL
  rw [goHasPre_append]
  simp only [if_true, goTrimPre_append]
  rw [if_pos (Nat.one_le_iff_ne_zero.mpr
    (fun hz => goSplit_ne_nil '/' (goTrimSuf rem dotGit) (List.length_eq_zero.mp hz))),
    goSplit_headI]

lemma extractOwnerFromURL_ssh (rem : GoStr) :
    extractOwnerFromURL (sshForm ++ rem) =
      .ok ((goTrimSuf rem dotGit).takeWhile (fun c => !(c == '/'))) := by
  unfold extractOwnerFromURL
  rw [not_httpsForm_of_sshForm, goHasPre_append]
  simp only [Bool.false_eq_true, if_false, if_true, goTrimPre_append]
  rw [if_pos (Nat.one_le_iff_ne_zero.mpr
    (fun hz => goSplit_ne_nil '/' (goTrimSuf rem dotGit) (List.length_eq_zero.mp hz))),
    goSplit_headI]

/-- C3: for clone URLs of the form `https://github.com/` or `git@github.com:`
followed by owner, a slash and a repository name (with or without a trailing
`.git`), `extractOwnerFromURL` returns exactly the owner with nil error; for a
URL starting with neither form it returns a non-nil error; and for a URL that
matches a form but whose remainder, after trimming `.git`, contains no slash,
it returns that whole trimmed remainder (possibly empty) with nil error. -/
theorem c3_extractOwnerFromURL_correct :
    (∀ owner repo : GoStr, '/' ∉ owner →
      extractOwnerFromURL (httpsForm ++ owner ++ ('/' :: (repo ++ dotGit))) = .ok owner ∧
      extractOwnerFromURL (httpsForm ++ owner ++ ('/' :: repo)) = .ok owner ∧
      extractOwnerFromURL (sshForm ++ owner ++ ('/' :: (repo ++ dotGit))) = .ok owner ∧
      extractOwnerFromURL (sshForm ++ owner ++ ('/' :: repo)) = .ok owner) ∧
    (∀ url : GoStr, goHasPre url httpsForm = false → goHasPre url sshForm = false →
      extractOwnerFromURL url = .error (extractErr url)) ∧
    (∀ rem : GoStr, '/' ∉ goTrimSuf rem dotGit →
      extractOwnerFromURL (httpsForm ++ rem) = .ok (goTrimSuf rem dotGit) ∧
      extractOwnerFromURL (sshForm ++ rem) = .ok (goTrimSuf rem dotGit)) := by
  refine ⟨fun owner repo h => ?_, fun url h1 h2 => ?_, fun rem h => ?_⟩
  · exact ⟨by rw [List.append_assoc, extractOwnerFromURL_https, takeWhile_goTrimSuf _ _ h],
           by rw [List.append_assoc, extractOwnerFromURL_https, takeWhile_goTrimSuf _ _ h],
           by rw [List.append_assoc, extractOwnerFromURL_ssh, takeWhile_goTrimSuf _ _ h],
           by rw [List.append_assoc, extractOwnerFromURL_ssh, takeWhile_goTrimSuf _ _ h]⟩
  · unfold extractOwnerFromURL
    simp only [h1, h2, Bool.false_eq_true, if_false]
  · exact ⟨by rw [extractOwnerFromURL_https, takeWhile_notSlash_of_not_mem _ h],
           by rw [extractOwnerFromURL_ssh, takeWhile_notSlash_of_not_mem _ h]⟩

/-- Witness for C3 at the concrete URLs exercised by the repository test
suite, including the no-slash edge case. -/
theorem c3_extractOwnerFromURL_correct_witness :
    extractOwnerFromURL (gs "https://github.com/klimeurt/secflow-collector.git")
      = .ok (gs "klimeurt") ∧
    extractOwnerFromURL (gs "git@github.com:klimeurt/secflow-collector")
      = .ok (gs "klimeurt") ∧
    extractOwnerFromURL (gs "invalid-url") = .error (extractErr (gs "invalid-url")) ∧
    extractOwnerFromURL (gs "https://github.com/onlyowner") = .ok (gs "onlyowner") := by
  refine ⟨?_, ?_, ?_, ?_⟩
  · exact (c3_extractOwnerFromURL_correct.1 (gs "klimeurt") (gs "secflow-collector")
      (by decide)).1
  · exact (c3_extractOwnerFromURL_correct.1 (gs "klimeurt") (gs "secflow-collector")
      (by decide)).2.2.2
  · exact c3_extractOwnerFromURL_correct.2.1 (gs "invalid-url") rfl rfl
  · exact (c3_extractOwnerFromURL_correct.2.2 (gs "onlyowner") (by decide)).1

/-- C2: a remote response with HTTP status 404 turns the (necessarily
non-nil) error of the remote call into the successful negative answer
`(false, nil)`; any other failure of the remote call is returned as a
non-nil (wrapped) error.  In the client library a non-2xx response always
comes with a non-nil error, so the 404 case is stated under that premise. -/
theorem c2_notFound_is_not_an_error :
    ∀ (call : GetContentsOutcome) (e : GoStr), call.err = some e →
      (call.respStatus = some 404 → HasAppSecConfig call = (false, none)) ∧
      (call.respStatus ≠ some 404 →
        HasAppSecConfig call = (false, some (checkWrapErr e))) := by
  rintro ⟨resp, err⟩ e he
  simp only at he
  subst he
  constructor
  · intro h404
    simp only at h404
    subst h404
    simp [HasAppSecConfig]
  · intro hne
    cases resp with
    | none => rfl
    | some code =>
      have hc : code ≠ 404 := by
        intro h
        exact hne (by simp [h])
      simp [HasAppSecConfig, hc]

/-- Witness for C2: a 404 outcome answers `(false, nil)`; a 500 outcome
returns the wrapped error. -/
theorem c2_notFound_is_not_an_error_witness :
    HasAppSecConfig ⟨some 404, some (gs "404 Not Found")⟩ = (false, none) ∧
    HasAppSecConfig ⟨some 500, some (gs "boom")⟩
      = (false, some (checkWrapErr (gs "boom"))) :=
  ⟨(c2_notFound_is_not_an_error ⟨some 404, some (gs "404 Not Found")⟩
      (gs "404 Not Found") rfl).1 rfl,
   (c2_notFound_is_not_an_error ⟨some 500, some (gs "boom")⟩
      (gs "boom") rfl).2 (by decide)⟩

/-- C9: whenever `HasAppSecConfig` returns a non-nil error, the boolean it
returns is exactly false — `(true, non-nil)` is never produced. -/
theorem c9_error_implies_false_bool :
    ∀ call : GetContentsOutcome,
      (HasAppSecConfig call).2.isSome = true → (HasAppSecConfig call).1 = false := by
  rintro ⟨resp, err⟩ h
  cases err with
  | none => simp [HasAppSecConfig] at h
  | some e =>
    cases resp with
    | none => rfl
    | some code =>
      by_cases hc : code = 404 <;> simp [HasAppSecConfig, hc]

/-- Witness for C9 at a transport failure (no response at all). -/
theorem c9_error_implies_false_bool_witness :
    (HasAppSecConfig ⟨none, some (gs "connection refused")⟩).1 = false :=
  c9_error_implies_false_bool ⟨none, some (gs "connection refused")⟩ rfl

/-- C1: when decode and owner extraction succeed but the existence check
returns a non-nil error, `ProcessMessage` attempts exactly one publish, of
the original payload on the invalid-repos subject, and none on the
valid-repos subject. -/
theorem c1_checker_error_routes_invalid :
    ∀ (cfg : Config) (unmarshal : GoStr → Except GoStr Repository)
      (check : GoStr → GoStr → Bool × Option GoStr)
      (pub : GoStr → GoStr → Option GoStr)
      (data : GoStr) (repo : Repository) (owner e : GoStr),
      unmarshal data = .ok repo →
      extractOwnerFromURL repo.CloneURL = .ok owner →
      (check owner repo.Name).2 = some e →
      (ProcessMessage cfg unmarshal check pub data).published
          = [(cfg.InvalidReposSubject, data)] ∧
        (cfg.ValidReposSubject ≠ cfg.InvalidReposSubject →
          ∀ b, (cfg.ValidReposSubject, b)
            ∉ (ProcessMessage cfg unmarshal check pub data).published) := by
  intro cfg unmarshal check pub data repo owner e hu hx hc
  have key : (ProcessMessage cfg unmarshal check pub data).published
      = [(cfg.InvalidReposSubject, data)] := by
    unfold ProcessMessage
    simp only [hu, hx]
    simp [hc]
  refine ⟨key, fun hne b hmem => ?_⟩
  rw [key] at hmem
  simp only [List.mem_singleton, Prod.mk.injEq] at hmem
  exact hne hmem.1

/-- Witness for C1: the spec scenario where the checker reports a network
error — note the checker is even made to answer `true` alongside the error,
and the message still goes to the invalid-repos subject. -/
theorem c1_checker_error_routes_invalid_witness :
    (ProcessMessage sampleConfig (constUnmarshal demoRepo)
        (constCheck true (some (gs "network error"))) noPubErr (gs "raw")).published
      = [(gs "repos.invalid", gs "raw")] :=
  (c1_checker_error_routes_invalid sampleConfig (constUnmarshal demoRepo)
    (constCheck true (some (gs "network error"))) noPubErr (gs "raw")
    demoRepo (gs "acme") (gs "network error") rfl rfl rfl).1

/-- C4: every publish `ProcessMessage` attempts carries, byte for byte, the
original inbound payload. -/
theorem c4_payload_forwarded_unchanged :
    ∀ (cfg : Config) (unmarshal : GoStr → Except GoStr Repository)
      (check : GoStr → GoStr → Bool × Option GoStr)
      (pub : GoStr → GoStr → Option GoStr)
      (data subject payload : GoStr),
      (subject, payload) ∈ (ProcessMessage cfg unmarshal check pub data).published →
      payload = data := by
  intro cfg unmarshal check pub data subject payload h
  unfold ProcessMessage at h
  rcases hu : unmarshal data with e | repo <;> simp only [hu] at h
  · simp at h
  · rcases hx : extractOwnerFromURL repo.CloneURL with e | owner <;> simp only [hx] at h
    · simp at h
    · simp only [List.mem_singleton, Prod.mk.injEq] at h
      exact h.2

/-- Witness for C4: in the valid-routing scenario the published payload is
the inbound payload. -/
theorem c4_payload_forwarded_unchanged_witness :
    ((gs "repos.valid", gs "raw") ∈ (ProcessMessage sampleConfig
        (constUnmarshal demoRepo) (constCheck true none) noPubErr
        (gs "raw")).published) ∧
      (gs "raw" : GoStr) = gs "raw" :=
  ⟨by decide,
   c4_payload_forwarded_unchanged sampleConfig (constUnmarshal demoRepo)
     (constCheck true none) noPubErr (gs "raw") (gs "repos.valid") (gs "raw")
     (by decide)⟩

/-- C5: when the payload does not decode, `ProcessMessage` returns the
wrapped decode error and attempts no publish at all. -/
theorem c5_decode_error_drops_message :
    ∀ (cfg : Config) (unmarshal : GoStr → Except GoStr Repository)
      (check : GoStr → GoStr → Bool × Option GoStr)
      (pub : GoStr → GoStr → Option GoStr)
      (data e : GoStr),
      unmarshal data = .error e →
      ProcessMessage cfg unmarshal check pub data
        = ⟨[], some (unmarshalWrapErr e)⟩ := by
  intro cfg unmarshal check pub data e hu
  unfold ProcessMessage
  rw [hu]

/-- Witness for C5 on an always-failing decoder. -/
theorem c5_decode_error_drops_message_witness :
    ProcessMessage sampleConfig failUnmarshal (constCheck true none) noPubErr
        (gs "not json")
      = ⟨[], some (unmarshalWrapErr (gs "invalid character"))⟩ :=
  c5_decode_error_drops_message sampleConfig failUnmarshal (constCheck true none)
    noPubErr (gs "not json") (gs "invalid character") rfl

/-- C6: the startup drain processes the backlog serially in delivery order
and stops exactly at the first pull timeout, with a nil error, regardless of
per-message processing errors (only successes are counted); a non-timeout
receive error stops the drain with a non-nil wrapped error, which makes
`Start` abort without establishing the live subscription. -/
theorem c6_drain_terminates_on_timeout :
    ∀ (proc : GoStr → Option GoStr) (ms : List GoStr) (rest : List RecvOutcome)
      (e : GoStr),
      (drainLoop proc (ms.map RecvOutcome.msg ++ RecvOutcome.timeout :: rest)
        = ⟨ms, ms.countP (fun d => (proc d).isNone), none⟩) ∧
      (drainLoop proc (ms.map RecvOutcome.msg ++ RecvOutcome.recvErr e :: rest)
        = ⟨ms, ms.countP (fun d => (proc d).isNone), some (recvWrapErr e)⟩) ∧
      (∀ (cfg : Config) (subErr : Option GoStr),
        cfg.ProcessStartupMessages = true →
        Start cfg proc (ms.map RecvOutcome.msg ++ RecvOutcome.recvErr e :: rest) subErr
          = (false, some (startWrapErr (recvWrapErr e)))) := by
  intro proc ms rest e
  have h1 : drainLoop proc (ms.map RecvOutcome.msg ++ RecvOutcome.timeout :: rest)
      = ⟨ms, ms.countP (fun d => (proc d).isNone), none⟩ := by
    induction ms with
    | nil => rfl
    | cons d ms ih =>
      cases hp : proc d <;>
        simp [drainLoop, ih, List.countP_cons, hp]
  have h2 : drainLoop proc (ms.map RecvOutcome.msg ++ RecvOutcome.recvErr e :: rest)
      = ⟨ms, ms.countP (fun d => (proc d).isNone), some (recvWrapErr e)⟩ := by
    clear h1
    induction ms with
    | nil => rfl
    | cons d ms ih =>
      cases hp : proc d <;>
        simp [drainLoop, ih, List.countP_cons, hp]
  refine ⟨h1, h2, fun cfg subErr hflag => ?_⟩
  unfold Start ProcessExistingMessages
  rw [hflag]
  simp [h2]

/-- Witness for C6: two backlog messages then a receive error; the drain
reports both processed and `Start` aborts. -/
theorem c6_drain_terminates_on_timeout_witness :
    Start sampleConfig (fun _ => none)
        ([gs "m1", gs "m2"].map RecvOutcome.msg
          ++ RecvOutcome.recvErr (gs "connection closed") :: []) none
      = (false, some (startWrapErr (recvWrapErr (gs "connection closed")))) :=
  (c6_drain_terminates_on_timeout (fun _ => none) [gs "m1", gs "m2"] []
    (gs "connection closed")).2.2 sampleConfig none rfl

/-- C7: along the `Stop` transition system, phases only move forward in the
strict order cancel, unsubscribe, wait, close; a new in-flight unit can be
spawned only while the subscription is still active (live or cancelled, i.e.
before the unsubscribe takes effect); and in every reachable state past the
wait barrier — in particular whenever the connection has been closed — the
in-flight counter is zero, so every unit in flight when Stop was invoked has
completed before Stop returns. -/
theorem c7_stop_shutdown_discipline :
    (∀ s t : VState, VStep s t → phaseRank s.phase ≤ phaseRank t.phase) ∧
    (∀ s t : VState, VStep s t → t.inFlight = s.inFlight + 1 →
      s.phase = VPhase.live ∨ s.phase = VPhase.cancelled) ∧
    (∀ (n : Nat) (s : VState),
      Relation.ReflTransGen VStep ⟨VPhase.live, n⟩ s →
      (s.phase = VPhase.waited ∨ s.phase = VPhase.closed) → s.inFlight = 0) := by
  have hinv : ∀ s t : VState, VStep s t →
      ((s.phase = VPhase.waited ∨ s.phase = VPhase.closed) → s.inFlight = 0) →
      ((t.phase = VPhase.waited ∨ t.phase = VPhase.closed) → t.inFlight = 0) := by
    intro s t hst hs
    cases hst with
    | spawn n => simp
    | spawnCancelled n => simp
    | finish ph n =>
      intro hph
      exact absurd (hs hph) (Nat.succ_ne_zero n)
    | cancel n => simp
    | unsub n => simp
    | waitDone => intro _; rfl
    | close => intro _; rfl
  refine ⟨?_, ?_, ?_⟩
  · intro s t hst
    cases hst <;> simp [phaseRank]
  · intro s t hst hcount
    cases hst with
    | spawn n => exact Or.inl rfl
    | spawnCancelled n => exact Or.inr rfl
    | finish ph n => simp at hcount; omega
    | cancel n => simp at hcount
    | unsub n => simp at hcount
    | waitDone => simp at hcount
    | close => simp at hcount
  · intro n s hreach
    induction hreach with
    | refl => simp
    | tail _ hstep ih => exact hinv _ _ hstep ih

/-- Witness for C7: one unit is in flight when Stop begins; it finishes
between cancel and unsubscribe, and the closed state is reached with a zero
counter. -/
theorem c7_stop_shutdown_discipline_witness :
    (⟨VPhase.closed, 0⟩ : VState).inFlight = 0 :=
  c7_stop_shutdown_discipline.2.2 1 ⟨VPhase.closed, 0⟩
    (Relation.ReflTransGen.tail
      (Relation.ReflTransGen.tail
        (Relation.ReflTransGen.tail
          (Relation.ReflTransGen.tail
            (Relation.ReflTransGen.tail Relation.ReflTransGen.refl
              (VStep.cancel 1))
            (VStep.finish VPhase.cancelled 0))
          (VStep.unsub 0))
        VStep.waitDone)
      VStep.close)
    (Or.inr rfl)

/-- C8: for a record with empty language and empty topics, the serialized
object has exactly the six always-present keys — neither a `language` nor a
`topics` key — and decoding that object back yields the record unchanged,
with language and topics still empty. -/
theorem c8_empty_fields_omitted_roundtrip :
    ∀ r : Repository, r.Language = [] → r.Topics = [] →
      ((marshalRepository r).map Prod.fst
          = [gs "name", gs "clone_url", gs "ssh_url", gs "https_url",
             gs "created_at", gs "updated_at"]) ∧
        gs "language" ∉ (marshalRepository r).map Prod.fst ∧
        gs "topics" ∉ (marshalRepository r).map Prod.fst ∧
        unmarshalRepository (marshalRepository r) = r := by
  rintro ⟨n, c, s, h, ca, ua, lang, tops⟩ h1 h2
  simp only at h1 h2
  subst h1
  subst h2
  have hkeys : (marshalRepository ⟨n, c, s, h, ca, ua, [], []⟩).map Prod.fst
      = [gs "name", gs "clone_url", gs "ssh_url", gs "https_url",
         gs "created_at", gs "updated_at"] := rfl
  refine ⟨hkeys, ?_, ?_, rfl⟩ <;> rw [hkeys] <;> decide

/-- Witness for C8 on the concrete demo record, whose language and topics
are empty. -/
theorem c8_empty_fields_omitted_roundtrip_witness :
    gs "language" ∉ (marshalRepository demoRepo).map Prod.fst ∧
    gs "topics" ∉ (marshalRepository demoRepo).map Prod.fst ∧
    unmarshalRepository (marshalRepository demoRepo) = demoRepo :=
  ⟨(c8_empty_fields_omitted_roundtrip demoRepo rfl rfl).2.1,
   (c8_empty_fields_omitted_roundtrip demoRepo rfl rfl).2.2.1,
   (c8_empty_fields_omitted_roundtrip demoRepo rfl rfl).2.2.2⟩

/-- C10: whenever `Load` succeeds, the startup-drain flag is true unless the
`PROCESS_STARTUP_MESSAGES` variable holds the exact literal `false` — any
other value, including unset (the empty string), `0` or `False`, leaves the
drain enabled. -/
theorem c10_startup_flag_defaults_true :
    ∀ (getenv : GoStr → GoStr) (cfg : Config), Load getenv = .ok cfg →
      (cfg.ProcessStartupMessages = true ↔
        getenv (gs "PROCESS_STARTUP_MESSAGES") ≠ gs "false") := by
  intro getenv cfg h
  unfold Load at h
  by_cases h1 : getenv (gs "GITHUB_ORG") = []
  · simp [h1] at h
  · by_cases h2 : getenv (gs "GITHUB_TOKEN") = []
    · simp [h1, h2] at h
    · simp only [h1, h2, if_neg, if_false, Except.ok.injEq] at h
      by_cases h3 : getenv (gs "PROCESS_STARTUP_MESSAGES") = gs "false" <;>
        simp [← h, h3]

/-- Witness for C10 on `sampleEnv`, where the variable holds `False` (wrong
case) and the flag stays enabled. -/
theorem c10_startup_flag_defaults_true_witness :
    Load sampleEnv = .ok sampleConfig ∧
      (sampleConfig.ProcessStartupMessages = true ↔
        sampleEnv (gs "PROCESS_STARTUP_MESSAGES") ≠ gs "false") :=
  ⟨rfl, c10_startup_flag_defaults_true sampleEnv sampleConfig rfl⟩

end SecFlow
